import Mathlib

/-!
Verification of the HeartBeat time-attendance tracker.

The definitions below are a shallow embedding of the repository's Python
sources.  Dates are modelled as integers (day numbers) with day 0 a Monday,
so that `weekday d = d % 7` matches Python's `date.weekday()` convention
(0 = Monday .. 6 = Sunday).  The SQL table `attendance_sheet` is modelled as a
`List Row`; `query(...).first()` becomes `List.find?` and an in-place mutation
of the found ORM object becomes `updateFirst`.  Python floats
(`daily_working_hours`) are modelled as rationals, with `int(x)` as truncation
toward zero; Python's `//` and `%` on integers are `Int.fdiv` / `Int.fmod`
(floor division, remainder with the divisor's sign), which agree with Python.
-/

namespace HeartBeat

/-- A row of the `attendance_sheet` table (simplified schema of `init_db.py`:
`device_id, date, category, time_recorded, time_required, description`).
`time_recorded` has SQL default 0. -/
structure Row where
  deviceId : String
  date : Int
  category : Int
  timeRecorded : Int
  timeRequired : Int
  description : Option String
  deriving DecidableEq

/-- The stored `settings.working_days` string.  The code persists it either as
a JSON integer array (what `/api/settings` and the settings form write) or as
a comma-separated day-name list such as `"Sat,Sun,Mon,Tue,Wed"` (the default
written by `init_default_settings`).  We model the two well-formed storage
formats as a tagged value instead of embedding a JSON parser; each consumer
function below parses it exactly the way its Python counterpart does. -/
inductive WorkingDaysCfg where
  | jsonInts (l : List Int)
  | dayNames (l : List String)
  deriving DecidableEq

/-- The singleton `settings` row (`app/models.py:Settings`), restricted to the
fields the verified operations read.  `start_date`/`end_date` are non-null per
the schema. -/
structure SettingsRow where
  deviceId : String
  startDate : Int
  endDate : Int
  workingDays : WorkingDaysCfg
  dailyWorkingHours : Rat
  deriving DecidableEq

/-- Python's `date.weekday()`: 0 = Monday .. 6 = Sunday, with day 0 a Monday. -/
def weekday (d : Int) : Int := d % 7

/-- Python's `int(_)` on a (rational-modelled) float: truncation toward 0. -/
def ratTrunc (q : Rat) : Int := Int.sign q.num * ((q.num.natAbs / q.den : Nat) : Int)

/-- The quantity `int(daily_working_hours * 60)` computed at the top of
`AttendanceService.calculate_time_required`. -/
def daily_required_minutes (dailyWorkingHours : Rat) : Int :=
  ratTrunc (dailyWorkingHours * 60)

/-- Embeds `AttendanceService.calculate_time_required`
(`app/services/attendance_service.py`, lines 103-125). -/
def calculate_time_required (category : Int) (dailyWorkingHours : Rat) : Int :=
  let dailyRequiredMinutes := daily_required_minutes dailyWorkingHours
  if category = 0 then dailyRequiredMinutes
  else if category = 1 then 0
  else if category = 10 then dailyRequiredMinutes.fdiv 2
  else if category = 11 then 0
  else if category = 90 then 0
  else dailyRequiredMinutes

/-- Python's `abs(_)` on an int. -/
def pyAbs (m : Int) : Int := if m < 0 then -m else m

/-- Python's format spec `{n:02d}` for the values used here. -/
def pad2 (n : Int) : String := if 0 ≤ n ∧ n < 10 then "0" ++ toString n else toString n

/-- The `days` variable of `format_balance_minutes` (`app/main.py`, line 113):
`int(minutes // int(daily_required_minutes))` after `minutes = abs(minutes)`. -/
def balance_days (m q : Int) : Int := (pyAbs m).fdiv q

/-- Embeds `format_balance_minutes` (`app/main.py`, lines 99-127).  The `None`
guards on the two arguments are modelled with `Option`. -/
def format_balance_minutes (minutes dailyRequiredMinutes : Option Int) : String :=
  match minutes, dailyRequiredMinutes with
  | some m, some q =>
    if q = 0 then "0d 00:00"
    else
      let sign := if m < 0 then "-" else ""
      let mabs := pyAbs m
      let days := balance_days m q
      let remaining := mabs.fmod q
      let hours := remaining.fdiv 60
      let mins := remaining.fmod 60
      if 0 < days then
        if 0 < hours ∨ 0 < mins then
          sign ++ toString days ++ "d " ++ pad2 hours ++ ":" ++ pad2 mins
        else sign ++ toString days ++ "d"
      else if 0 < hours then sign ++ pad2 hours ++ ":" ++ pad2 mins
      else sign ++ pad2 mins ++ "m"
  | _, _ => "0d 00:00"

/-- The `days` variable of `StatisticsService.format_balance`
(`app/services/statistics.py`, line 25): `abs_minutes // (24 * 60)` — a fixed
24-hour day, not the daily requirement. -/
def statistics_balance_days (absMinutes : Int) : Int := absMinutes.fdiv (24 * 60)

/-- Embeds `StatisticsService.format_balance`
(`app/services/statistics.py`, lines 13-46). -/
def format_balance (balanceMinutes dailyRequiredMinutes : Int) : String :=
  if balanceMinutes = 0 then "0:00 hours"
  else
    let isNegative := balanceMinutes < 0
    let absMinutes := pyAbs balanceMinutes
    let result :=
      if dailyRequiredMinutes < absMinutes then
        let days := statistics_balance_days absMinutes
        let remaining := absMinutes.fmod (24 * 60)
        let hours := remaining.fdiv 60
        let minutes := remaining.fmod 60
        if 0 < days then toString days ++ " days and " ++ toString hours ++ ":" ++ pad2 minutes
        else toString hours ++ ":" ++ pad2 minutes ++ " hours"
      else
        let hours := absMinutes.fdiv 60
        let minutes := absMinutes.fmod 60
        toString hours ++ ":" ++ pad2 minutes ++ " hours"
    if isNegative then "-" ++ result
    else if 0 < balanceMinutes then "+" ++ result
    else result

/-- The `day_mapping` dictionary of `AttendanceService.add_holiday_range`
(`app/services/attendance_service.py`, line 227). -/
def day_mapping (s : String) : Option Int :=
  if s = "Mon" then some 0
  else if s = "Tue" then some 1
  else if s = "Wed" then some 2
  else if s = "Thu" then some 3
  else if s = "Fri" then some 4
  else if s = "Sat" then some 5
  else if s = "Sun" then some 6
  else none

/-- The `working_days_set` computation of `AttendanceService.add_holiday_range`
(`app/services/attendance_service.py`, lines 211-228): a JSON array parses to
its set of integers; a comma-separated string maps day names through
`day_mapping`, dropping unknown names. -/
def working_days_set_range (cfg : WorkingDaysCfg) : List Int :=
  match cfg with
  | .jsonInts l => l
  | .dayNames names => names.filterMap day_mapping

/-- The `working_days` parsing of `AttendanceService.delete_holiday`
(`app/services/attendance_service.py`, lines 387-394): only `json.loads` is
attempted, so a comma-separated day-name value raises and falls back to the
hard-coded default `[0, 1, 2, 3, 4]` (Mon-Fri). -/
def working_days_delete (cfg : WorkingDaysCfg) : List Int :=
  match cfg with
  | .jsonInts l => l
  | .dayNames _ => [0, 1, 2, 3, 4]

/-- The no-override calendar classification (spec section 4.1): workday (0) if
the date's weekday is in the configured working-day set, weekend (1)
otherwise.  The configured set is read the way `add_holiday_range` reads it. -/
def classify_no_override (cfg : WorkingDaysCfg) (d : Int) : Int :=
  if (working_days_set_range cfg).contains (weekday d) then 0 else 1

/-- The orphaned-record cleanup performed at the start of `add_holiday_range`
and `add_holiday`: rows whose `device_id` is not among the settings rows
(there is a single settings row) are deleted. -/
def cleanup_orphans (s : SettingsRow) (rows : List Row) : List Row :=
  rows.filter (fun r => r.deviceId == s.deviceId)

/-- Mutation of the first row matched by a `query(...).first()` call:
replaces the first element satisfying `p` by its image under `f`. -/
def updateFirst (p : Row → Bool) (f : Row → Row) : List Row → List Row
  | [] => []
  | r :: rs => if p r then f r :: rs else r :: updateFirst p f rs

/-- The `final_description` computation of `add_holiday_range`
(`app/services/attendance_service.py`, lines 250-256). -/
def final_description (category : Int) (descr : String) : String :=
  if descr.trim = "" then
    if category = 11 then "Leave (full day)"
    else if category = 10 then "Leave (half day)"
    else descr
  else descr

/-- The in-place update applied by `add_holiday_range` to an existing row when
the new category wins (`app/services/attendance_service.py`, lines 266-281):
category, description and device id are overwritten; `time_required` is reset
only for categories 90, 11 and 10 (any other winning category leaves the old
`time_required` in place). -/
def apply_holiday_upgrade (s : SettingsRow) (category : Int) (descr : String) (r : Row) : Row :=
  { r with
    category := category
    description := some descr
    deviceId := s.deviceId
    timeRequired :=
      if category = 90 then 0
      else if category = 11 then 0
      else if category = 10 then calculate_time_required 10 s.dailyWorkingHours
      else r.timeRequired }

/-- One iteration of the date loop of `add_holiday_range`
(`app/services/attendance_service.py`, lines 233-297).  The state is the
table together with the accumulated `added_days` list. -/
def holiday_range_step (s : SettingsRow) (wd : List Int) (category : Int) (descr : String)
    (st : List Row × List Int) (d : Int) : List Row × List Int :=
  let rows := st.1
  let isWeekend := !(wd.contains (weekday d))
  let isHoliday := rows.any (fun r => r.date == d && r.category == (90 : Int))
  if (isWeekend || isHoliday) && (category == (10 : Int) || category == (11 : Int)) then st
  else
    let fd := final_description category descr
    match rows.find? (fun r => r.date == d) with
    | some existing =>
      if category > existing.category ∨ (category = 90 ∧ existing.category ≠ 90) then
        (updateFirst (fun r => r.date == d) (apply_holiday_upgrade s category fd) rows,
         st.2 ++ [d])
      else st
    | none =>
      (rows ++ [⟨s.deviceId, d, category, 0,
                 calculate_time_required category s.dailyWorkingHours, some fd⟩],
       st.2 ++ [d])

/-- The inclusive date range iterated by the `while current_date <= end_date`
loops. -/
def dateRange (start fin : Int) : List Int :=
  (List.range (fin + 1 - start).toNat).map (fun i => start + Int.ofNat i)

/-- Embeds `AttendanceService.add_holiday_range`
(`app/services/attendance_service.py`, lines 185-314), returning the updated
table and the `added_days` list.  The caller guarantees a settings row
exists (the code raises otherwise). -/
def add_holiday_range (s : SettingsRow) (start fin : Int) (category : Int)
    (descr : String) (rows : List Row) : List Row × List Int :=
  (dateRange start fin).foldl
    (holiday_range_step s (working_days_set_range s.workingDays) category descr)
    (cleanup_orphans s rows, [])

/-- Embeds `AttendanceService.add_holiday`
(`app/services/attendance_service.py`, lines 316-368): after the orphan
cleanup, the first row at the date (regardless of its category) is marked as a
holiday — category 90, the given description, `time_required` 0 — or a fresh
holiday row is created (`time_recorded` takes its SQL default 0). -/
def add_holiday (s : SettingsRow) (d : Int) (descr : String) (rows : List Row) : List Row :=
  let cleaned := cleanup_orphans s rows
  match cleaned.find? (fun r => r.date == d) with
  | some _ =>
    updateFirst (fun r => r.date == d)
      (fun r => { r with category := 90, description := some descr,
                         deviceId := s.deviceId, timeRequired := 0 }) cleaned
  | none => cleaned ++ [⟨s.deviceId, d, 90, 0, 0, some descr⟩]

/-- Row predicate of the `delete_holiday` query: `date == d` and category in
(90, 11, 10). -/
def is_deletable_at (d : Int) (r : Row) : Bool :=
  r.date == d && (r.category == (90 : Int) || r.category == (11 : Int) || r.category == (10 : Int))

/-- The in-place update of `delete_holiday`
(`app/services/attendance_service.py`, lines 396-411): the row reverts to
workday or weekend according to the weekday-vs-working-days test (with the
working days parsed by `working_days_delete`), with `time_required`
recomputed for the new category. -/
def delete_revert (s : SettingsRow) (d : Int) (r : Row) : Row :=
  let wd := working_days_delete s.workingDays
  let isWorkingDay := wd.contains (weekday d)
  let newCategory : Int := if isWorkingDay then 0 else 1
  { r with
    category := newCategory
    description := if isWorkingDay then none else some "Weekend"
    timeRequired := calculate_time_required newCategory s.dailyWorkingHours }

/-- Embeds `AttendanceService.delete_holiday`
(`app/services/attendance_service.py`, lines 370-414): reverts the first
holiday/leave row at the date via `delete_revert`; returns `false` and leaves
the table unchanged when no such row exists. -/
def delete_holiday (s : SettingsRow) (d : Int) (rows : List Row) : Bool × List Row :=
  if rows.any (is_deletable_at d) then
    (true, updateFirst (is_deletable_at d) (delete_revert s d) rows)
  else (false, rows)

/-- The `daily_working_hours` fallback of `record_heartbeat`
(`app/services/attendance_service.py`, line 16): the settings value, or 8 when
no settings row exists. -/
def heartbeat_hours (settings : Option SettingsRow) : Rat :=
  match settings with
  | some s => s.dailyWorkingHours
  | none => 8

/-- Embeds `AttendanceService.record_heartbeat`
(`app/services/attendance_service.py`, lines 8-39): finds or creates the row
for (device, today); a fresh row starts as a workday with `time_recorded` 1,
an existing row has `time_recorded` incremented by exactly 1. -/
def record_heartbeat (settings : Option SettingsRow) (dev : String) (today : Int)
    (rows : List Row) : List Row :=
  let h := heartbeat_hours settings
  match rows.find? (fun r => r.deviceId == dev && r.date == today) with
  | none => rows ++ [⟨dev, today, 0, 1, calculate_time_required 0 h, none⟩]
  | some _ =>
    updateFirst (fun r => r.deviceId == dev && r.date == today)
      (fun r => { r with timeRecorded := r.timeRecorded + 1 }) rows

/-- Embeds `AttendanceService.update_time_required_for_all`
(`app/services/attendance_service.py`, lines 139-149): every row of the device
gets `time_required` recomputed from its existing category and the new daily
requirement. -/
def update_time_required_for_all (dev : String) (dailyWorkingHours : Rat)
    (rows : List Row) : List Row :=
  rows.map (fun r =>
    if r.deviceId == dev then
      { r with timeRequired := calculate_time_required r.category dailyWorkingHours }
    else r)

/-- Filter of the dashboard's balance query (`app/main.py`, lines 403-406):
rows of the settings device whose date lies between the period start and
`min(period end, today)` inclusive. -/
def dashboard_pred (s : SettingsRow) (balanceEnd : Int) (r : Row) : Bool :=
  r.deviceId == s.deviceId && decide (s.startDate ≤ r.date) && decide (r.date ≤ balanceEnd)

/-- Embeds the top-level balance computation of the `dashboard` route
(`app/main.py`, lines 381-430): `balance_end_date = min(settings.end_date,
today)`; the balance is the sum of `time_recorded` minus the sum of
`time_required` over the queried rows. -/
def dashboard_balance (today : Int) (s : SettingsRow) (rows : List Row) : Int :=
  let balanceEnd := min s.endDate today
  let balanceRecords := rows.filter (dashboard_pred s balanceEnd)
  ((balanceRecords.map Row.timeRecorded).sum) - ((balanceRecords.map Row.timeRequired).sum)

/-- Recorded minutes stored for the settings device at date `d` (the summed
`time_recorded` of its rows at that date; with the schema's unique
(device, date) constraint this is the single row's value, and 0 when no row
exists). -/
def recorded_at (s : SettingsRow) (rows : List Row) (d : Int) : Int :=
  ((rows.filter (fun r => r.deviceId == s.deviceId && r.date == d)).map Row.timeRecorded).sum

/-- Required minutes stored for the settings device at date `d` (0 when no row
exists). -/
def required_at (s : SettingsRow) (rows : List Row) (d : Int) : Int :=
  ((rows.filter (fun r => r.deviceId == s.deviceId && r.date == d)).map Row.timeRequired).sum

/-- Embeds the observable behaviour of `POST /api/heartbeat`
(`app/main.py`, lines 49-60 and 450-460) as status code plus resulting table.
A request with a present token runs `verify_token`, which answers 401 when the
token differs from the configured one and otherwise lets the handler record
the heartbeat (200).  The `none` branch is the behaviour of the
`HTTPBearer()` security dependency for a request whose bearer token is
missing: it rejects the request before the handler runs, with status 403, so
the handler's own 401 path is unreachable for missing tokens. -/
def heartbeat_endpoint (token : Option String) (expected : String)
    (settings : Option SettingsRow) (dev : String) (today : Int)
    (rows : List Row) : Nat × List Row :=
  match token with
  | none => (403, rows)
  | some t => if t = expected then (200, record_heartbeat settings dev today rows) else (401, rows)

/-! General helper lemmas about the list-table primitives. -/

theorem find_append_skip (p : Row → Bool) (pre rest : List Row)
    (h : ∀ x ∈ pre, p x = false) :
    (pre ++ rest).find? p = rest.find? p := by
  induction pre with
  | nil => simp
  | cons r rs ih =>
    have hr : ¬ p r = true := by simp [h r (List.mem_cons_self r rs)]
    rw [List.cons_append, List.find?_cons_of_neg _ hr]
    exact ih (fun x hx => h x (List.mem_cons_of_mem r hx))

theorem updateFirst_append_skip (p : Row → Bool) (f : Row → Row) (pre rest : List Row)
    (h : ∀ x ∈ pre, p x = false) :
    updateFirst p f (pre ++ rest) = pre ++ updateFirst p f rest := by
  induction pre with
  | nil => rfl
  | cons r rs ih =>
    have hr := h r (List.mem_cons_self r rs)
    rw [List.cons_append, updateFirst, hr]
    simp only [Bool.false_eq_true, if_false, List.cons_append, List.cons.injEq, true_and]
    exact ih (fun x hx => h x (List.mem_cons_of_mem r hx))

theorem updateFirst_cons_pos (p : Row → Bool) (f : Row → Row) (r : Row) (l : List Row)
    (h : p r = true) :
    updateFirst p f (r :: l) = f r :: l := by
  rw [updateFirst, h]
  simp

theorem find_eq_some_split (p : Row → Bool) (l : List Row) (a : Row)
    (h : l.find? p = some a) :
    ∃ pre post, l = pre ++ a :: post ∧ (∀ x ∈ pre, p x = false) ∧ p a = true := by
  induction l with
  | nil => simp at h
  | cons r rs ih =>
    by_cases hr : p r = true
    · rw [List.find?_cons_of_pos _ hr] at h
      obtain rfl : r = a := by injection h
      exact ⟨[], rs, rfl, by simp, hr⟩
    · rw [List.find?_cons_of_neg _ hr] at h
      obtain ⟨pre, post, rfl, hpre, ha⟩ := ih h
      refine ⟨r :: pre, post, rfl, ?_, ha⟩
      intro x hx
      rcases List.mem_cons.mp hx with hx | hx
      · subst hx; simpa using hr
      · exact hpre x hx

/-!
## C5 — `calculate_time_required` case table
-/

/-- C5: for every category and every daily requirement,
`calculate_time_required` returns the full daily required minutes for
workday (0); 0 for weekend (1), full-day leave (11) and holiday (90); the
daily required minutes halved with (floor) integer division for half-day
leave (10); and the full daily required minutes for any unknown category,
where the daily required minutes are `int(daily_working_hours * 60)`. -/
theorem calculate_time_required_cases (h : Rat) (c : Int) :
    calculate_time_required 0 h = daily_required_minutes h ∧
    calculate_time_required 1 h = 0 ∧
    calculate_time_required 11 h = 0 ∧
    calculate_time_required 90 h = 0 ∧
    calculate_time_required 10 h = (daily_required_minutes h).fdiv 2 ∧
    (c ≠ 0 → c ≠ 1 → c ≠ 10 → c ≠ 11 → c ≠ 90 →
      calculate_time_required c h = daily_required_minutes h) := by
  refine ⟨rfl, rfl, rfl, rfl, rfl, ?_⟩
  intro h0 h1 h10 h11 h90
  simp [calculate_time_required, h0, h1, h10, h11, h90]

/-- Witness for C5: the defensive default at the unknown category 42. -/
theorem calculate_time_required_cases_witness :
    calculate_time_required 42 8 = daily_required_minutes 8 :=
  (calculate_time_required_cases 8 42).2.2.2.2.2
    (by decide) (by decide) (by decide) (by decide) (by decide)

/-!
## C10 — `format_balance_minutes` zero-divisor guard
-/

/-- C10: `format_balance_minutes` is total, and when the daily requirement is
`None` or 0 it returns the fixed string `"0d 00:00"` for every minutes input,
before any division is performed. -/
theorem format_balance_minutes_zero_guard (m : Option Int) :
    format_balance_minutes m none = "0d 00:00" ∧
    format_balance_minutes m (some 0) = "0d 00:00" := by
  cases m <;> simp [format_balance_minutes]

/-!
## C2 — balance rendering day unit
-/

/-- Counterexample for C2: `StatisticsService.format_balance` renders the days
component with a fixed 24-hour day.  At balance 1560 and daily requirement
450 it prints `+1 days and 2:00` — its days component
(`statistics_balance_days`) is `1560 // 1440 = 1` — whereas `|m| div q` is
`1560 // 450 = 3`, so the claim's "every rendering" fails on this renderer. -/
theorem format_balance_fixed_day_counterexample :
    format_balance 1560 450 = "+1 days and 2:00" ∧
    statistics_balance_days (pyAbs 1560) = 1 ∧
    (pyAbs 1560).fdiv 450 = 3 :=
  ⟨rfl, rfl, rfl⟩

/-- C2 (amended): the dashboard renderer `format_balance_minutes` does use the
daily required-minutes as the day unit: for every balance `m` and daily
requirement `q > 0` its days component `balance_days` equals `|m| div q`, a
zero balance renders as the unsigned `"00m"`, and one full daily quota plus
two hours renders as `"1d 02:00"` (whenever the quota exceeds 120 minutes, so
that two hours do not already make a day). -/
theorem format_balance_minutes_day_unit (m q : Int) (hq : 0 < q) :
    balance_days m q = |m| / q ∧
    format_balance_minutes (some 0) (some q) = "00m" ∧
    (120 < q → format_balance_minutes (some (q + 120)) (some q) = "1d 02:00") := by
  have habs : ∀ x : Int, pyAbs x = |x| := by
    intro x
    rw [pyAbs]
    split
    · rw [abs_of_neg (by assumption)]
    · rw [abs_of_nonneg (by omega)]
  refine ⟨?_, ?_, ?_⟩
  · rw [balance_days, Int.fdiv_eq_ediv _ (le_of_lt hq), habs]
  · rw [format_balance_minutes]
    have h0 : pyAbs (0 : Int) = 0 := rfl
    simp only [hq.ne', if_false, balance_days, h0, Int.zero_fdiv, Int.zero_fmod]
    norm_num
    rfl
  · intro h120
    have hm : ¬ (q + 120 < 0) := by omega
    have habs2 : pyAbs (q + 120) = q + 120 := by rw [habs]; rw [abs_of_nonneg (by omega)]
    have hdays : balance_days (q + 120) q = 1 := by
      rw [balance_days, habs2, Int.fdiv_eq_ediv _ (by omega)]
      have h1 : q + 120 = 120 + 1 * q := by ring
      rw [h1, Int.add_mul_ediv_right _ _ (by omega : q ≠ 0),
          Int.ediv_eq_zero_of_lt (by omega) (by omega)]
      norm_num
    have hrem : (q + 120).fmod q = 120 := by
      rw [Int.fmod_eq_emod _ (by omega)]
      have h1 : q + 120 = 120 + q * 1 := by ring
      rw [h1, Int.add_mul_emod_self_left]
      exact Int.emod_eq_of_lt (by omega) (by omega)
    rw [format_balance_minutes]
    simp only [hq.ne', if_false, hm, habs2, hdays, hrem]
    norm_num
    decide

/-- Witness for C2 (amended), at daily requirement 480 (8-hour days). -/
theorem format_balance_minutes_day_unit_witness :
    balance_days 1080 480 = |(1080 : Int)| / 480 ∧
    format_balance_minutes (some 0) (some 480) = "00m" ∧
    format_balance_minutes (some (480 + 120)) (some 480) = "1d 02:00" := by
  obtain ⟨h1, h2, h3⟩ := format_balance_minutes_day_unit 1080 480 (by decide)
  exact ⟨h1, h2, h3 (by decide)⟩

/-!
## C8 — heartbeat endpoint authentication
-/

/-- C8: a request to `POST /api/heartbeat` whose bearer token is present but
different from the configured token gets status 401 and mutates no state; a
request with a missing bearer token is rejected by the `HTTPBearer()`
dependency before the handler runs — with status 403, not the 401 the spec
states — and likewise mutates no state. -/
theorem heartbeat_endpoint_auth (expected : String) (settings : Option SettingsRow)
    (dev : String) (today : Int) (rows : List Row) :
    heartbeat_endpoint none expected settings dev today rows = (403, rows) ∧
    (∀ t : String, t ≠ expected →
      heartbeat_endpoint (some t) expected settings dev today rows = (401, rows)) := by
  refine ⟨rfl, fun t ht => ?_⟩
  simp [heartbeat_endpoint, ht]

/-- Witness for C8: concrete rejected requests leave the empty table empty. -/
theorem heartbeat_endpoint_auth_witness :
    heartbeat_endpoint none "secret" none "A" 0 [] = (403, []) ∧
    heartbeat_endpoint (some "wrong") "secret" none "A" 0 [] = (401, []) :=
  ⟨(heartbeat_endpoint_auth "secret" none "A" 0 []).1,
   (heartbeat_endpoint_auth "secret" none "A" 0 []).2 "wrong" (by decide)⟩

/-!
## C7 — settings change recomputes required minutes only
-/

/-- C7: `update_time_required_for_all` leaves device id, date, category,
recorded minutes and description of every row unchanged, sets the required
minutes of each row of the device to the value computed from that row's
existing category and the new daily requirement (and leaves other devices'
required minutes alone), and is idempotent. -/
theorem update_time_required_for_all_frame_idem (dev : String) (h : Rat) (rows : List Row) :
    ((update_time_required_for_all dev h rows).map
        (fun r => (r.deviceId, r.date, r.category, r.timeRecorded, r.description))
      = rows.map (fun r => (r.deviceId, r.date, r.category, r.timeRecorded, r.description))) ∧
    ((update_time_required_for_all dev h rows).map Row.timeRequired
      = rows.map (fun r =>
          if r.deviceId == dev then calculate_time_required r.category h
          else r.timeRequired)) ∧
    update_time_required_for_all dev h (update_time_required_for_all dev h rows)
      = update_time_required_for_all dev h rows := by
  refine ⟨?_, ?_, ?_⟩
  · simp only [update_time_required_for_all, List.map_map]
    apply List.map_congr_left
    intro r _
    by_cases hr : r.deviceId = dev <;> simp [hr]
  · simp only [update_time_required_for_all, List.map_map]
    apply List.map_congr_left
    intro r _
    by_cases hr : r.deviceId = dev <;> simp [hr]
  · simp only [update_time_required_for_all, List.map_map]
    apply List.map_congr_left
    intro r _
    by_cases hr : r.deviceId = dev <;> simp [hr]

/-!
## C1 — holiday-range precedence
-/

/-- C1 (failing input): `add_holiday_range` decides overwrites with the
numeric comparison `category > existing.category`, under which the weekend
code 1 beats the workday code 0 even though the precedence order (also stated
in the code's own comment) puts workday above weekend.  Requesting a
weekend-category range over Monday day 0 — a stored workday with 100 recorded
and 480 required minutes — overwrites the stored category with weekend (1),
and, because the `time_required` reset only handles categories 90, 11 and 10,
leaves the workday requirement of 480 minutes on a now-weekend row. -/
theorem add_holiday_range_weekend_overwrites_workday :
    ((add_holiday_range ⟨"DEV", 0, 30, .jsonInts [0, 1, 2, 3, 4], 8⟩ 0 0 1 "wknd"
        [⟨"DEV", 0, 0, 100, 480, none⟩]).1.map
      (fun r => (r.date, r.category, r.timeRequired)))
      = [(0, 1, 480)] := rfl

/-!
## C9 — single-date `add_holiday` overwrites unconditionally
-/

/-- C9: `add_holiday` unconditionally marks the date's first row as a holiday
— category 90, the given description, required minutes 0, the settings device
id — overwriting any existing category with no precedence or weekend check
while keeping the recorded minutes, and creates a fresh holiday row (with 0
recorded minutes) when no row exists for the date. -/
theorem add_holiday_unconditional (s : SettingsRow) (d : Int) (descr : String)
    (rows : List Row) :
    (∀ r0, (cleanup_orphans s rows).find? (fun r => r.date == d) = some r0 →
      (add_holiday s d descr rows).find? (fun r => r.date == d)
        = some { r0 with
                   deviceId := s.deviceId
                   category := 90
                   description := some descr
                   timeRequired := 0 }) ∧
    ((cleanup_orphans s rows).find? (fun r => r.date == d) = none →
      add_holiday s d descr rows
        = cleanup_orphans s rows ++ [⟨s.deviceId, d, 90, 0, 0, some descr⟩]) := by
  constructor
  · intro r0 hfind
    obtain ⟨pre, post, hsplit, hpre, hp⟩ := find_eq_some_split _ _ _ hfind
    simp only [add_holiday, hfind]
    rw [hsplit, updateFirst_append_skip _ _ _ _ hpre, updateFirst_cons_pos _ _ _ _ hp,
        find_append_skip _ _ _ hpre]
    exact List.find?_cons_of_pos _ hp
  · intro hfind
    simp only [add_holiday, hfind]

/-- Witness for C9: a stored weekend row (category 1, 55 recorded minutes) is
overwritten to a holiday with its recorded minutes kept. -/
theorem add_holiday_unconditional_witness :
    (add_holiday ⟨"DEV", 0, 30, .jsonInts [0, 1, 2, 3, 4], 8⟩ 0 "X"
        [⟨"DEV", 0, 1, 55, 0, some "Weekend"⟩]).find? (fun r => r.date == (0 : Int))
      = some ⟨"DEV", 0, 90, 55, 0, some "X"⟩ :=
  (add_holiday_unconditional ⟨"DEV", 0, 30, .jsonInts [0, 1, 2, 3, 4], 8⟩ 0 "X"
      [⟨"DEV", 0, 1, 55, 0, some "Weekend"⟩]).1
    ⟨"DEV", 0, 1, 55, 0, some "Weekend"⟩ rfl

/-!
## C6 — repeated heartbeats accumulate exactly
-/

/-- An existing (device, today) row — of any category — has its recorded
minutes incremented by exactly 1 by `record_heartbeat`, and nothing else in
the table changes. -/
theorem record_heartbeat_increments (settings : Option SettingsRow) (dev : String)
    (today : Int) (pre : List Row) (x : Row) (post : List Row)
    (hpre : ∀ y ∈ pre, (y.deviceId == dev && y.date == today) = false)
    (hx : (x.deviceId == dev && x.date == today) = true) :
    record_heartbeat settings dev today (pre ++ x :: post)
      = pre ++ { x with timeRecorded := x.timeRecorded + 1 } :: post := by
  have hfind : (pre ++ x :: post).find? (fun r => r.deviceId == dev && r.date == today)
      = some x := by
    rw [find_append_skip _ _ _ hpre]
    exact List.find?_cons_of_pos _ hx
  simp only [record_heartbeat, hfind]
  rw [updateFirst_append_skip _ _ _ _ hpre, updateFirst_cons_pos _ _ _ _ hx]

/-- Iterating `record_heartbeat` n+1 times on a table with no (device, today)
row appends a single workday row whose recorded minutes count the calls. -/
theorem record_heartbeat_iterate (settings : Option SettingsRow) (dev : String)
    (today : Int) (rows : List Row)
    (hnone : rows.find? (fun r => r.deviceId == dev && r.date == today) = none)
    (n : Nat) :
    (record_heartbeat settings dev today)^[n + 1] rows
      = rows ++ [⟨dev, today, 0, ((n + 1 : Nat) : Int),
                  calculate_time_required 0 (heartbeat_hours settings), none⟩] := by
  have hpre : ∀ y ∈ rows, (y.deviceId == dev && y.date == today) = false := by
    intro y hy
    have := List.find?_eq_none.mp hnone y hy
    simpa using this
  induction n with
  | zero =>
    rw [Function.iterate_one]
    simp [record_heartbeat, hnone]
  | succ k ih =>
    rw [Function.iterate_succ_apply', ih,
        record_heartbeat_increments settings dev today rows _ [] hpre (by simp)]
    rw [List.append_cancel_left_eq]
    simp only [List.cons.injEq, and_true]
    congr 1

/-- C6: starting from a table with no row for (device, today), calling
`record_heartbeat` N ≥ 1 times with unchanged settings yields a single new
row for that day with category workday (0) and `time_recorded` = N; moreover
each call on a table that does have a (device, today) row increments that
row's recorded minutes by exactly 1, regardless of the row's category. -/
theorem record_heartbeat_n_times (settings : Option SettingsRow) (dev : String)
    (today : Int) (rows : List Row) (N : Nat)
    (hnone : rows.find? (fun r => r.deviceId == dev && r.date == today) = none)
    (hN : 1 ≤ N) :
    ((record_heartbeat settings dev today)^[N] rows
      = rows ++ [⟨dev, today, 0, (N : Int),
                  calculate_time_required 0 (heartbeat_hours settings), none⟩]) ∧
    (∀ pre (x : Row) post, (∀ y ∈ pre, (y.deviceId == dev && y.date == today) = false) →
      (x.deviceId == dev && x.date == today) = true →
      record_heartbeat settings dev today (pre ++ x :: post)
        = pre ++ { x with timeRecorded := x.timeRecorded + 1 } :: post) := by
  constructor
  · obtain ⟨k, rfl⟩ : ∃ k, N = k + 1 := ⟨N - 1, by omega⟩
    exact record_heartbeat_iterate settings dev today rows hnone k
  · intro pre x post hpre hx
    exact record_heartbeat_increments settings dev today pre x post hpre hx

/-- Witness for C6: three heartbeats on an empty table for device "A". -/
theorem record_heartbeat_n_times_witness :
    (record_heartbeat none "A" 0)^[3] []
      = [] ++ [⟨"A", 0, 0, ((3 : Nat) : Int),
                calculate_time_required 0 (heartbeat_hours none), none⟩] :=
  (record_heartbeat_n_times none "A" 0 [] 3 rfl (by decide)).1

/-!
## C4 — delete after single-day holiday add (round trip)
-/

/-- Counterexample for C4: with the comma-separated working-days value
`"Sat,Sun,Mon,Tue,Wed"` (the default `init_default_settings` writes),
`delete_holiday` cannot parse the configuration as JSON and falls back to
Mon-Fri, so deleting the holiday added on day 5 — a Saturday, which is a
configured working day — leaves the date stored as weekend (1) although the
no-override classification of that date is workday (0). -/
theorem delete_after_add_roundtrip_counterexample :
    (((delete_holiday ⟨"DEV", 0, 30, .dayNames ["Sat", "Sun", "Mon", "Tue", "Wed"], 8⟩ 5
        (add_holiday_range ⟨"DEV", 0, 30, .dayNames ["Sat", "Sun", "Mon", "Tue", "Wed"], 8⟩
          5 5 90 "X" []).1).2.find? (fun r => r.date == (5 : Int))).map Row.category)
      = some 1 ∧
    classify_no_override (.dayNames ["Sat", "Sun", "Mon", "Tue", "Wed"]) 5 = 0 :=
  ⟨rfl, rfl⟩

/-- A single-day `add_holiday_range` with category 90 always leaves the table
with a first row at the date whose category is 90, preceded only by rows at
other dates. -/
theorem add_range_single_day_decomp (s : SettingsRow) (d : Int) (descr : String)
    (rows : List Row) :
    ∃ pre post x, (add_holiday_range s d d 90 descr rows).1 = pre ++ x :: post ∧
      (∀ y ∈ pre, (y.date == d) = false) ∧ x.date = d ∧ x.category = 90 := by
  have hrange : dateRange d d = [d] := by
    unfold dateRange
    have h1 : (d + 1 - d).toNat = 1 := by omega
    rw [h1, show List.range 1 = [0] from rfl, List.map_cons, List.map_nil]
    rw [show Int.ofNat 0 = 0 from rfl, add_zero]
  have hskip : (((90 : Int) == 10) || ((90 : Int) == 11)) = false := rfl
  unfold add_holiday_range
  rw [hrange, List.foldl_cons, List.foldl_nil]
  simp only [holiday_range_step, hskip, Bool.and_false, Bool.false_eq_true, if_false]
  cases hfind : (cleanup_orphans s rows).find? (fun r => r.date == d) with
  | none =>
    simp only [hfind]
    refine ⟨cleanup_orphans s rows, [], _, rfl, ?_, rfl, rfl⟩
    intro y hy
    have := List.find?_eq_none.mp hfind y hy
    simpa using this
  | some r0 =>
    obtain ⟨pre, post, hsplit, hpre, hp⟩ := find_eq_some_split _ _ _ hfind
    simp only [hfind]
    by_cases hc90 : r0.category = 90
    · have hcond : ¬ ((90 : Int) > r0.category ∨ True ∧ r0.category ≠ 90) := by
        rw [hc90]
        simp
      rw [if_neg hcond]
      exact ⟨pre, post, r0, hsplit, hpre, by simpa using hp, hc90⟩
    · have hcond : ((90 : Int) > r0.category ∨ True ∧ r0.category ≠ 90) :=
        Or.inr ⟨trivial, hc90⟩
      rw [if_pos hcond]
      refine ⟨pre, post, apply_holiday_upgrade s 90 (final_description 90 descr) r0,
        ?_, hpre, ?_, ?_⟩
      · show updateFirst _ _ _ = _
        rw [hsplit, updateFirst_append_skip _ _ _ _ hpre, updateFirst_cons_pos _ _ _ _ hp]
      · show r0.date = d
        simpa using hp
      · rfl

/-- `delete_holiday` on a table whose first row at the date is a
holiday/leave row reports success and reverts exactly that row. -/
theorem delete_holiday_split (s : SettingsRow) (d : Int) (pre post : List Row) (x : Row)
    (hpre : ∀ y ∈ pre, (y.date == d) = false)
    (hx : is_deletable_at d x = true) :
    delete_holiday s d (pre ++ x :: post)
      = (true, pre ++ delete_revert s d x :: post) := by
  have hpre2 : ∀ y ∈ pre, is_deletable_at d y = false := by
    intro y hy
    rw [is_deletable_at, hpre y hy, Bool.false_and]
  have hany : (pre ++ x :: post).any (is_deletable_at d) = true := by
    rw [List.any_append]
    simp [hx]
  simp only [delete_holiday, hany, if_true]
  rw [updateFirst_append_skip _ _ _ _ hpre2, updateFirst_cons_pos _ _ _ _ hx]

/-- C4 (amended): whenever the configured working-days value is stored in the
JSON array format — which both `add_holiday_range` and `delete_holiday` parse
to the same set, and which every settings write endpoint produces —
`delete_holiday d` after `add_holiday_range d d holiday` restores the date's
stored category to exactly the no-override classification (workday when the
weekday is among the configured working days, weekend otherwise), with
`time_required` recomputed for that category, and reports success. -/
theorem delete_after_add_holiday_roundtrip (s : SettingsRow) (l : List Int) (d : Int)
    (descr : String) (rows : List Row)
    (hwd : s.workingDays = WorkingDaysCfg.jsonInts l) :
    (delete_holiday s d (add_holiday_range s d d 90 descr rows).1).1 = true ∧
    ((delete_holiday s d (add_holiday_range s d d 90 descr rows).1).2.find?
        (fun r => r.date == d)).map (fun r => (r.category, r.timeRequired))
      = some (classify_no_override s.workingDays d,
              calculate_time_required (classify_no_override s.workingDays d)
                s.dailyWorkingHours) := by
  obtain ⟨pre, post, x, heq, hpre, hxd, hxc⟩ := add_range_single_day_decomp s d descr rows
  have hx : is_deletable_at d x = true := by
    rw [is_deletable_at]
    simp [hxd, hxc]
  have hdel := delete_holiday_split s d pre post x hpre hx
  rw [heq, hdel]
  refine ⟨rfl, ?_⟩
  have hfind2 : (pre ++ delete_revert s d x :: post).find? (fun r => r.date == d)
      = some (delete_revert s d x) := by
    rw [find_append_skip _ _ _ hpre]
    apply List.find?_cons_of_pos
    show (x.date == d) = true
    simp [hxd]
  show ((pre ++ delete_revert s d x :: post).find? (fun r => r.date == d)).map
      (fun r => (r.category, r.timeRequired)) = _
  rw [hfind2, hwd]
  by_cases hc : l.contains (weekday d) = true <;>
    simp [delete_revert, classify_no_override, working_days_delete,
          working_days_set_range, hwd, hc]

/-- Witness for C4 (amended): JSON-configured Mon-Fri working days, deleting
the holiday added on day 5 (a Saturday) reverts it to weekend with 0 required
minutes. -/
theorem delete_after_add_holiday_roundtrip_witness :
    (delete_holiday ⟨"DEV", 0, 30, .jsonInts [0, 1, 2, 3, 4], 8⟩ 5
        (add_holiday_range ⟨"DEV", 0, 30, .jsonInts [0, 1, 2, 3, 4], 8⟩ 5 5 90 "X" []).1).1
      = true ∧
    ((delete_holiday ⟨"DEV", 0, 30, .jsonInts [0, 1, 2, 3, 4], 8⟩ 5
        (add_holiday_range ⟨"DEV", 0, 30, .jsonInts [0, 1, 2, 3, 4], 8⟩ 5 5 90 "X" []).1).2.find?
        (fun r => r.date == (5 : Int))).map (fun r => (r.category, r.timeRequired))
      = some (classify_no_override (WorkingDaysCfg.jsonInts [0, 1, 2, 3, 4]) 5,
              calculate_time_required
                (classify_no_override (WorkingDaysCfg.jsonInts [0, 1, 2, 3, 4]) 5) 8) :=
  delete_after_add_holiday_roundtrip ⟨"DEV", 0, 30, .jsonInts [0, 1, 2, 3, 4], 8⟩
    [0, 1, 2, 3, 4] 5 "X" [] rfl

/-!
## C3 — dashboard period balance
-/

/-- A single row passes the dashboard balance filter exactly when its date
lies in the balance range, in which case it contributes at its own date. -/
theorem dashboard_pred_icc (g : Row → Int) (s : SettingsRow) (bend : Int) (r : Row) :
    (if dashboard_pred s bend r then g r else 0)
      = Finset.sum (Finset.Icc s.startDate bend)
          (fun d => if r.deviceId == s.deviceId && r.date == d then g r else 0) := by
  by_cases hdev : r.deviceId = s.deviceId
  · have hdev2 : (r.deviceId == s.deviceId) = true := by simp [hdev]
    have hsum : Finset.sum (Finset.Icc s.startDate bend)
        (fun d => if r.deviceId == s.deviceId && r.date == d then g r else 0)
        = if r.date ∈ Finset.Icc s.startDate bend then g r else 0 := by
      simp only [hdev2, Bool.true_and, beq_iff_eq]
      exact Finset.sum_ite_eq (Finset.Icc s.startDate bend) r.date (fun _ => g r)
    rw [hsum]
    by_cases h1 : s.startDate ≤ r.date <;> by_cases h2 : r.date ≤ bend <;>
      simp [dashboard_pred, hdev2, Finset.mem_Icc, h1, h2]
  · have hdev2 : (r.deviceId == s.deviceId) = false := by simp [hdev]
    simp [dashboard_pred, hdev2]

/-- The sum of a row projection over the dashboard's filtered rows equals the
date-by-date sum over the balance range of the per-date filtered sums. -/
theorem filter_sum_eq_icc (g : Row → Int) (s : SettingsRow) (bend : Int)
    (rows : List Row) :
    ((rows.filter (dashboard_pred s bend)).map g).sum
      = Finset.sum (Finset.Icc s.startDate bend)
          (fun d =>
            ((rows.filter (fun r => r.deviceId == s.deviceId && r.date == d)).map g).sum) := by
  induction rows with
  | nil => simp
  | cons r rest ih =>
    have hcons : ∀ d : Int,
        (((r :: rest).filter (fun x => x.deviceId == s.deviceId && x.date == d)).map g).sum
          = (if r.deviceId == s.deviceId && r.date == d then g r else 0)
            + ((rest.filter (fun x => x.deviceId == s.deviceId && x.date == d)).map g).sum := by
      intro d
      rw [List.filter_cons]
      by_cases h : (r.deviceId == s.deviceId && r.date == d) = true <;> simp [h]
    rw [Finset.sum_congr rfl (fun d _ => hcons d), Finset.sum_add_distrib,
        ← dashboard_pred_icc g s bend r, List.filter_cons]
    by_cases hp : dashboard_pred s bend r = true <;> simp [hp, ih]

/-- C3: the top-level dashboard period balance equals the sum of recorded
minus required minutes over exactly the dates from the period start through
min(period end, today): no date after today and no date outside the period
contributes to the balance. -/
theorem dashboard_balance_spec (today : Int) (s : SettingsRow) (rows : List Row) :
    dashboard_balance today s rows
      = Finset.sum (Finset.Icc s.startDate (min s.endDate today))
          (fun d => recorded_at s rows d - required_at s rows d) := by
  simp only [dashboard_balance, recorded_at, required_at]
  rw [filter_sum_eq_icc Row.timeRecorded s (min s.endDate today) rows,
      filter_sum_eq_icc Row.timeRequired s (min s.endDate today) rows,
      ← Finset.sum_sub_distrib]

end HeartBeat
